import Mathlib

/-!
Shallow embedding of the Plasma TensorFlow operators from
cpp/src/plasma/tensorflow_op/tf_plasma_op.cc and of the tensor header helpers
from cpp/src/arrow/python/tensor_util.cc.

Conventions of the embedding:
* byte buffers are `List Nat` (one entry per byte; the numeric value of a byte
  is never interpreted, only copied);
* machine integers (`size_t`, `int64_t`) are `Nat` — all the quantities
  involved (byte counts, offsets) are non-negative and far from overflow in
  every scenario considered, and the C++ code performs no wrapping arithmetic
  on them;
* the TensorFlow kernel context is split into its observable parts: the list
  of input tensors, the object-id input, a device tag, and a record of the
  GPU-runtime answers (stream availability, registration/init/wait/enqueue
  successes);
* `OP_REQUIRES_ASYNC` failures set an error status, call `done` and return;
  they are modelled as an `errorStatus` outcome together with a `doneCalled`
  event.  `CHECK` / `CHECK_EQ` / `CHECK_GT` / `ARROW_CHECK_OK` failures abort
  the process; they are modelled as a `crash` outcome (and no `doneCalled`);
* each call of an external collaborator (plasma create/seal/get, header-size
  computation, output allocation, `done`) is recorded as an `Event` in
  program order, so temporal claims can be stated over the event trace.
-/

/-- Error kinds distinguished by the operators: TensorFlow statuses
(`InvalidArgument`, `Internal`), arrow statuses (`TypeError`,
`SerializationError`), fatal `CHECK` failures, store-side failures, and
allocator failures. -/
inductive ErrKind where
  | invalidArgument
  | typeError
  | checkFailed
  | storeError
  | serializationError
  | internalError
  | allocError
deriving DecidableEq, Repr

/-- TensorFlow element-type tags appearing in the switch of
`tf_dtype_to_arrow` (tf_plasma_op.cc lines 59-101). -/
inductive DataType where
  | DT_BOOL
  | DT_FLOAT
  | DT_DOUBLE
  | DT_HALF
  | DT_INT8
  | DT_INT16
  | DT_INT32
  | DT_INT64
  | DT_UINT8
  | DT_UINT16
  | DT_UINT32
  | DT_UINT64
  | DT_BFLOAT16
  | DT_COMPLEX64
  | DT_COMPLEX128
  | DT_INVALID
  | DT_STRING
deriving DecidableEq, Repr

/-- Arrow element-type tags produced by `tf_dtype_to_arrow`. -/
inductive ArrowType where
  | boolean
  | float32
  | float64
  | float16
  | int8
  | int16
  | int32
  | int64
  | uint8
  | uint16
  | uint32
  | uint64
deriving DecidableEq, Repr

/-- The switch in tf_plasma_op.cc lines 59-101.  Supported dtypes map to the
corresponding arrow type; every other case reaches
`ARROW_CHECK_OK(Status(TypeError, ...))`, a fatal abort, modelled as an
error value that the caller turns into a `crash`. -/
def tf_dtype_to_arrow : DataType → Except ErrKind ArrowType
  | .DT_BOOL => .ok .boolean
  | .DT_FLOAT => .ok .float32
  | .DT_DOUBLE => .ok .float64
  | .DT_HALF => .ok .float16
  | .DT_INT8 => .ok .int8
  | .DT_INT16 => .ok .int16
  | .DT_INT32 => .ok .int32
  | .DT_INT64 => .ok .int64
  | .DT_UINT8 => .ok .uint8
  | .DT_UINT16 => .ok .uint16
  | .DT_UINT32 => .ok .uint32
  | .DT_UINT64 => .ok .uint64
  | _ => .error .typeError

/-- A TensorFlow input tensor as the op observes it: its dtype, its reported
element count (`NumElements()`) and its raw bytes (`TotalBytes()` is the
length of `data`). -/
structure Tensor where
  dtype : DataType
  numElements : Nat
  data : List Nat
deriving DecidableEq, Repr

/-- The object-id input tensor: a string tensor whose `NumElements()` the op
checks to be 1, and whose single element is the 20-byte binary object id. -/
structure IdTensor where
  numElements : Nat
  value : String
deriving DecidableEq, Repr

/-- An arrow tensor as handed to the serialization layer: dtype, backing
buffer and shape.  Both helpers in tensor_util.cc construct it with the empty
buffer `std::make_shared<arrow::Buffer>(nullptr, 0)`, i.e. `data = []`. -/
structure ArrowTensor where
  dtype : ArrowType
  data : List Nat
  shape : List Nat
deriving DecidableEq, Repr

/-- Modelled from the spec: the serialization layer
(`arrow::py::SerializeTensor` followed by `SerializedPyObject::WriteTo`,
outside this repository) is consumed as a deterministic function from a
tensor to the byte string it emits, failing with a serialization error when
the format rejects the dtype/shape.  Determinism is inherent: a Lean function
always returns the same bytes for the same tensor. -/
abbrev SerializeFn := ArrowTensor → Except ErrKind (List Nat)

/-- tensor_util.cc lines 27-37: serialize an empty tensor of the given
dtype/shape into a counting sink (`MockOutputStream`) and report the number
of bytes written. -/
def TensorFlowTensorGetHeaderSize (ser : SerializeFn) (dtype : ArrowType)
    (shape : List Nat) : Except ErrKind Nat :=
  match ser { dtype := dtype, data := [], shape := shape } with
  | .error e => .error e
  | .ok bytes => .ok bytes.length

/-- tensor_util.cc lines 39-48: serialize the same empty tensor into a
`FixedSizeBufferWriter` over `buffer` and report `Tell()`, the position just
past the header.  The writer memcpys into the fixed buffer from position 0;
writing past the end is modelled as a serialization failure. -/
def TensorFlowTensorWrite (ser : SerializeFn) (dtype : ArrowType)
    (shape : List Nat) (buffer : List Nat) : Except ErrKind (Nat × List Nat) :=
  match ser { dtype := dtype, data := [], shape := shape } with
  | .error e => .error e
  | .ok bytes =>
    if bytes.length ≤ buffer.length then
      .ok (bytes.length, bytes ++ buffer.drop bytes.length)
    else
      .error .serializationError

/-- The plasma store as the ops observe it through the client: objects that
were created but not yet sealed, and sealed objects readable by `Get`. -/
structure PlasmaStore where
  pending : List (String × List Nat)
  sealed : List (String × List Nat)
deriving DecidableEq, Repr

/-- Does the store already know this object id (created or sealed)? -/
def PlasmaStore.containsId (st : PlasmaStore) (id : String) : Bool :=
  st.pending.any (fun p => p.1 == id) || st.sealed.any (fun p => p.1 == id)

/-- `PlasmaClient::Create`: allocate a zero-initialized writable buffer of
the requested size; fails if the id already exists (or the store is full,
also a store error). -/
def PlasmaStore.create (st : PlasmaStore) (id : String) (size : Nat) :
    Except ErrKind (PlasmaStore × List Nat) :=
  if st.containsId id then
    .error .storeError
  else
    .ok ({ st with pending := (id, List.replicate size 0) :: st.pending },
         List.replicate size 0)

/-- `PlasmaClient::Seal`: publish the created object with its final bytes
(the C++ client seals the shared region in place; the embedding passes the
final buffer contents explicitly).  Fails if the id was not created. -/
def PlasmaStore.seal (st : PlasmaStore) (id : String) (buf : List Nat) :
    Except ErrKind PlasmaStore :=
  if st.pending.any (fun p => p.1 == id) then
    .ok { pending := st.pending.filter (fun p => !(p.1 == id)),
          sealed := (id, buf) :: st.sealed }
  else
    .error .storeError

/-- `PlasmaClient::Get` with `timeout_ms = -1`: returns the bytes of a sealed
object; if the object has not been sealed the call blocks indefinitely,
modelled as `none`. -/
def PlasmaStore.getSealed (st : PlasmaStore) (id : String) : Option (List Nat) :=
  (st.sealed.find? (fun p => p.1 == id)).map (fun p => p.2)

/-- Observable calls made by one op invocation, in program order. -/
inductive Event where
  | headerSizeCalled (dtype : ArrowType) (shape : List Nat)
  | createCalled (id : String) (size : Nat)
  | sealCalled (id : String)
  | getCalled (id : String)
  | allocateOutput (numElements : Nat)
  | doneCalled
  | copyDone (i : Nat)
deriving DecidableEq, Repr

/-- How one invocation ends: normal return with OK status, normal return
with an error status (after calling `done`), process abort from a fatal
check, or blocked forever inside `PlasmaClient::Get`. -/
inductive Outcome where
  | ok
  | errorStatus (e : ErrKind)
  | crash (e : ErrKind)
  | blocked
deriving DecidableEq, Repr

/-- Work items enqueued on a staging stream: the cross-stream wait, one
async memcpy per input tensor, and the completion hook registered through
`EventMgr::ThenExecute` (sealing wrapped_callback for Put, plain `done` for
Get). -/
inductive StreamItem where
  | waitFor
  | copy (i : Nat)
  | hookSeal (id : String) (buf : List Nat)
  | hookDone
deriving DecidableEq, Repr

/-- The device-runtime answers an invocation can observe: whether the
caller's compute stream exists, whether `HostMemoryRegister` /
`Stream::Init` / `ThenWaitFor` succeed, and whether the i-th `ThenMemcpy`
is accepted for enqueueing. -/
structure GpuCtx where
  hasStream : Bool
  registerOk : Bool
  initOk : Bool
  waitOk : Bool
  enqueueOk : Nat → Bool

/-- Execution context of the kernel template parameter. -/
inductive Device where
  | cpu
  | gpu
deriving DecidableEq, Repr

/-- tf_plasma_op.cc lines 144-154: the offset-planning loop.  For each input
tensor, `s = TotalBytes()`; `CHECK_EQ(s, NumElements() * sizeof(float))` and
`CHECK_GT(s, 0)` abort on failure; otherwise `s` is added to the running
total, which is appended to the offset vector. -/
def offsetsLoop : List Tensor → Nat → Except ErrKind (List Nat × Nat)
  | [], total => .ok ([], total)
  | t :: rest, total =>
    if t.data.length = t.numElements * 4 then
      if 0 < t.data.length then
        match offsetsLoop rest (total + t.data.length) with
        | .error e => .error e
        | .ok (offs, tot) => .ok ((total + t.data.length) :: offs, tot)
      else .error .checkFailed
    else .error .checkFailed

/-- The full offset table: `offsets[0] = 0` pushed before the loop
(tf_plasma_op.cc line 146), then one entry per tensor. -/
def computeOffsets (inputs : List Tensor) : Except ErrKind (List Nat × Nat) :=
  match offsetsLoop inputs 0 with
  | .error e => .error e
  | .ok (offs, tot) => .ok (0 :: offs, tot)

/-- One `std::memcpy(dst, src, n)` into a byte buffer. -/
def writeBytesAt (buf : List Nat) (pos : Nat) (src : List Nat) : List Nat :=
  buf.take pos ++ src ++ buf.drop (pos + src.length)

/-- tf_plasma_op.cc lines 203-208 (and the byte-identical effect of the D2H
copies in lines 235-248): copy tensor i to byte position
`base + (offsets[i] / sizeof(float)) * sizeof(float)` — the destination is
computed as a `float*` — with length `offsets[i+1] - offsets[i]`. -/
def cpuCopyLoop (base : Nat) : List Tensor → List Nat → List Nat → List Nat
  | t :: rest, o1 :: o2 :: os, buf =>
    cpuCopyLoop base rest (o2 :: os)
      (writeBytesAt buf (base + o1 / 4 * 4) (t.data.take (o2 - o1)))
  | _, _, buf => buf

/-- tf_plasma_op.cc lines 235-248: enqueue one `ThenMemcpy` per tensor on
the d2h stream, in input order; the first enqueue rejection stops the loop
(`OP_REQUIRES_ASYNC`), leaving the copies already enqueued on the stream.
Returns (all-enqueues-accepted, items enqueued). -/
def gpuEnqueueLoop (enq : Nat → Bool) (i : Nat) : Nat → Bool × List StreamItem
  | 0 => (true, [])
  | m + 1 =>
    if enq i then
      let r := gpuEnqueueLoop enq (i + 1) m
      (r.1, .copy i :: r.2)
    else (false, [])

/-- Result of one `ComputeAsync` invocation of the Put op: the events of its
synchronous part, how the synchronous part ended, the store state it leaves
behind, and the work items it enqueued on the d2h staging stream. -/
structure OpResult where
  events : List Event
  outcome : Outcome
  store : PlasmaStore
  queue : List StreamItem
deriving Repr

/-- TensorToPlasmaOp::ComputeAsync (tf_plasma_op.cc lines 136-253).
`num_inputs = inputs.length + 1` (the tensors plus the object-id input), so
the arity check `num_inputs >= 2` fails exactly when `inputs = []`. -/
def TensorToPlasmaOp_ComputeAsync (dev : Device) (ser : SerializeFn)
    (st : PlasmaStore) (inputs : List Tensor) (idt : IdTensor) (gpu : GpuCtx) :
    OpResult :=
  match inputs with
  | [] => ⟨[.doneCalled], .errorStatus .invalidArgument, st, []⟩
  | t0 :: rest =>
    match computeOffsets (t0 :: rest) with
    | .error e => ⟨[], .crash e, st, []⟩
    | .ok (offsets, total_bytes) =>
      if rest.any (fun t => t.dtype != t0.dtype) then
        ⟨[], .crash .typeError, st, []⟩
      else if idt.numElements ≠ 1 then
        ⟨[], .crash .checkFailed, st, []⟩
      else
        match tf_dtype_to_arrow t0.dtype with
        | .error e => ⟨[], .crash e, st, []⟩
        | .ok arrow_dtype =>
          match TensorFlowTensorGetHeaderSize ser arrow_dtype
              [total_bytes / 4] with
          | .error e =>
            ⟨[.headerSizeCalled arrow_dtype [total_bytes / 4]], .crash e, st, []⟩
          | .ok header_size =>
            match PlasmaStore.create st idt.value (header_size + total_bytes) with
            | .error e =>
              ⟨[.headerSizeCalled arrow_dtype [total_bytes / 4],
                .createCalled idt.value (header_size + total_bytes)],
               .crash e, st, []⟩
            | .ok (st1, data_buffer) =>
              match TensorFlowTensorWrite ser arrow_dtype [total_bytes / 4]
                  data_buffer with
              | .error e =>
                ⟨[.headerSizeCalled arrow_dtype [total_bytes / 4],
                  .createCalled idt.value (header_size + total_bytes)],
                 .crash e, st1, []⟩
              | .ok (offset, buf1) =>
                match dev with
                | .cpu =>
                  let buf2 := cpuCopyLoop offset (t0 :: rest) offsets buf1
                  match PlasmaStore.seal st1 idt.value buf2 with
                  | .error e =>
                    ⟨[.headerSizeCalled arrow_dtype [total_bytes / 4],
                      .createCalled idt.value (header_size + total_bytes),
                      .sealCalled idt.value],
                     .crash e, st1, []⟩
                  | .ok st2 =>
                    ⟨[.headerSizeCalled arrow_dtype [total_bytes / 4],
                      .createCalled idt.value (header_size + total_bytes),
                      .sealCalled idt.value, .doneCalled],
                     .ok, st2, []⟩
                | .gpu =>
                  if gpu.hasStream = false then
                    ⟨[.headerSizeCalled arrow_dtype [total_bytes / 4],
                      .createCalled idt.value (header_size + total_bytes),
                      .doneCalled],
                     .errorStatus .internalError, st1, []⟩
                  else if gpu.registerOk = false then
                    ⟨[.headerSizeCalled arrow_dtype [total_bytes / 4],
                      .createCalled idt.value (header_size + total_bytes)],
                     .crash .checkFailed, st1, []⟩
                  else if gpu.initOk = false then
                    ⟨[.headerSizeCalled arrow_dtype [total_bytes / 4],
                      .createCalled idt.value (header_size + total_bytes)],
                     .crash .checkFailed, st1, []⟩
                  else if gpu.waitOk = false then
                    ⟨[.headerSizeCalled arrow_dtype [total_bytes / 4],
                      .createCalled idt.value (header_size + total_bytes)],
                     .crash .checkFailed, st1, []⟩
                  else
                    let el := gpuEnqueueLoop gpu.enqueueOk 0 (t0 :: rest).length
                    let buf2 := cpuCopyLoop offset (t0 :: rest) offsets buf1
                    if el.1 then
                      ⟨[.headerSizeCalled arrow_dtype [total_bytes / 4],
                        .createCalled idt.value (header_size + total_bytes)],
                       .ok, st1,
                       .waitFor :: el.2 ++ [.hookSeal idt.value buf2]⟩
                    else
                      ⟨[.headerSizeCalled arrow_dtype [total_bytes / 4],
                        .createCalled idt.value (header_size + total_bytes),
                        .doneCalled],
                       .errorStatus .internalError, st1, .waitFor :: el.2⟩

/-- Result of one `ComputeAsync` invocation of the Get op. `output` is the
destination tensor delivered to the runtime: its flat element count and the
bytes copied into it. -/
structure GetResult where
  events : List Event
  outcome : Outcome
  output : Option (Nat × List Nat)
  queue : List StreamItem
deriving Repr

/-- PlasmaToTensorOp::ComputeAsync (tf_plasma_op.cc lines 300-374).  The flat
output shape is `size_in_bytes / sizeof(float)` with truncating division; on
the CPU path `std::memcpy` copies all `size_in_bytes` bytes of the object.
`allocOk` is the runtime allocator's answer to `allocate_output`. -/
def PlasmaToTensorOp_ComputeAsync (dev : Device) (st : PlasmaStore)
    (idt : IdTensor) (gpu : GpuCtx) (allocOk : Bool) : GetResult :=
  if idt.numElements ≠ 1 then
    ⟨[], .crash .checkFailed, none, []⟩
  else
    match PlasmaStore.getSealed st idt.value with
    | none => ⟨[.getCalled idt.value], .blocked, none, []⟩
    | some bytes =>
      let shape := bytes.length / 4
      if allocOk = false then
        ⟨[.getCalled idt.value, .doneCalled], .errorStatus .allocError,
         none, []⟩
      else
        match dev with
        | .cpu =>
          ⟨[.getCalled idt.value, .allocateOutput shape, .doneCalled],
           .ok, some (shape, bytes), []⟩
        | .gpu =>
          if gpu.hasStream = false then
            ⟨[.getCalled idt.value, .allocateOutput shape, .doneCalled],
             .errorStatus .internalError, none, []⟩
          else if gpu.enqueueOk 0 = false then
            ⟨[.getCalled idt.value, .allocateOutput shape, .doneCalled],
             .errorStatus .internalError, none, []⟩
          else if gpu.waitOk = false then
            ⟨[.getCalled idt.value, .allocateOutput shape],
             .crash .checkFailed, none, [.copy 0]⟩
          else
            ⟨[.getCalled idt.value, .allocateOutput shape],
             .ok, some (shape, bytes), [.copy 0, .hookDone]⟩

/-- Result of running the staging stream to completion. -/
structure DrainResult where
  events : List Event
  outcome : Outcome
  store : PlasmaStore
deriving Repr

/-- Execute one stream item: a wait produces nothing observable, a copy
completes, the Put hook runs `wrapped_callback` (seal under the store lock —
`ARROW_CHECK_OK`, i.e. a crash on failure — then `done`), the Get hook runs
`done`. -/
def execItem (st : PlasmaStore) : StreamItem → List Event × Outcome × PlasmaStore
  | .waitFor => ([], .ok, st)
  | .copy i => ([.copyDone i], .ok, st)
  | .hookSeal id buf =>
    match PlasmaStore.seal st id buf with
    | .ok st2 => ([.sealCalled id, .doneCalled], .ok, st2)
    | .error e => ([.sealCalled id], .crash e, st)
  | .hookDone => ([.doneCalled], .ok, st)

/-- Run the enqueued stream items to completion, in FIFO order; a crash
inside a hook aborts the rest. -/
def drainRun (st : PlasmaStore) : List StreamItem → DrainResult
  | [] => ⟨[], .ok, st⟩
  | item :: rest =>
    match execItem st item with
    | (evs, .crash e, st2) => ⟨evs, .crash e, st2⟩
    | (evs, _, st2) =>
      let r := drainRun st2 rest
      ⟨evs ++ r.events, r.outcome, r.store⟩

/-- The complete (synchronous part plus staging-stream work) observable
history of one Put invocation.  A crash of the synchronous part kills the
process, so nothing further is observed. -/
def fullPutRun (dev : Device) (ser : SerializeFn) (st : PlasmaStore)
    (inputs : List Tensor) (idt : IdTensor) (gpu : GpuCtx) :
    List Event × Outcome :=
  let r := TensorToPlasmaOp_ComputeAsync dev ser st inputs idt gpu
  match r.outcome with
  | .crash e => (r.events, .crash e)
  | .blocked => (r.events, .blocked)
  | .errorStatus e => (r.events ++ (drainRun r.store r.queue).events,
                       .errorStatus e)
  | .ok =>
    let d := drainRun r.store r.queue
    (r.events ++ d.events, d.outcome)

/-- The complete observable history of one Get invocation. -/
def fullGetRun (dev : Device) (st : PlasmaStore) (idt : IdTensor)
    (gpu : GpuCtx) (allocOk : Bool) : List Event × Outcome :=
  let r := PlasmaToTensorOp_ComputeAsync dev st idt gpu allocOk
  match r.outcome with
  | .crash e => (r.events, .crash e)
  | .blocked => (r.events, .blocked)
  | .errorStatus e => (r.events ++ (drainRun ⟨[], []⟩ r.queue).events,
                       .errorStatus e)
  | .ok =>
    let d := drainRun ⟨[], []⟩ r.queue
    (r.events ++ d.events, d.outcome)

/-- Number of completion-callback invocations in a trace. -/
def countDone (evs : List Event) : Nat := evs.count .doneCalled

/-- Callback invocations the code actually performs for each way an
invocation can end: exactly one on every path that returns control to the
runtime, none when a fatal check aborts the process, and none (yet) while a
Get blocks forever inside the store. -/
def expectedDone : Outcome → Nat
  | .ok => 1
  | .errorStatus _ => 1
  | .crash _ => 0
  | .blocked => 0

/-- State of the host/stream concurrency model used for the device-path
ordering claim: the host's remaining enqueue actions, the staging stream's
FIFO queue, and the completion events the stream has emitted so far. -/
structure MachineState where
  toEnqueue : List StreamItem
  queue : List StreamItem
  trace : List Event
deriving DecidableEq, Repr

/-- Completion events of one stream item (stream side; seal here always
succeeds because the Put that enqueued the hook created the object and
nothing unseals it). -/
def execEvents : StreamItem → List Event
  | .waitFor => []
  | .copy i => [.copyDone i]
  | .hookSeal id _ => [.sealCalled id, .doneCalled]
  | .hookDone => [.doneCalled]

/-- Interleaved small-step semantics: at any moment either the host enqueues
its next item at the tail of the stream's queue, or the stream completes the
item at the head of its queue and emits its events.  This models arbitrary
interleavings of the host thread with the asynchronous stream. -/
inductive MStep : MachineState → MachineState → Prop
  | host (x : StreamItem) (xs q : List StreamItem) (tr : List Event) :
      MStep ⟨x :: xs, q, tr⟩ ⟨xs, q ++ [x], tr⟩
  | stream (x : StreamItem) (xs q : List StreamItem) (tr : List Event) :
      MStep ⟨xs, x :: q, tr⟩ ⟨xs, q, tr ++ execEvents x⟩

/-- Reachability under arbitrary interleavings. -/
def MReach (s t : MachineState) : Prop := Relation.ReflTransGen MStep s t

/-- Sum of the per-tensor byte sizes. -/
def sumBytes (inputs : List Tensor) : Nat :=
  (inputs.map (fun t => t.data.length)).sum

/-- Prefix totals produced by the offset loop starting from a running total:
`prefixTotals b [s0, s1, ...] = [b + s0, b + s0 + s1, ...]`. -/
def prefixTotals (b : Nat) : List Nat → List Nat
  | [] => []
  | s :: rest => (b + s) :: prefixTotals (b + s) rest

/-- A concrete instance of the external serialization layer emitting a fixed
4-byte header for every tensor; used to instantiate concrete runs. -/
def ser0 : SerializeFn := fun _ => .ok [9, 9, 9, 9]

/-- A GPU runtime that accepts every request. -/
def gpu0 : GpuCtx := ⟨true, true, true, true, fun _ => true⟩

/-- The store with no objects. -/
def emptyStore : PlasmaStore := ⟨[], []⟩

/-- The only failure the offset loop can produce is a fatal check failure. -/
lemma offsetsLoop_error : ∀ (inputs : List Tensor) (total : Nat) (e : ErrKind),
    offsetsLoop inputs total = .error e → e = .checkFailed := by
  intro inputs
  induction inputs with
  | nil => intro total e h; simp [offsetsLoop] at h
  | cons t rest ih =>
    intro total e h
    simp only [offsetsLoop] at h
    split at h
    · split at h
      · split at h
        · rename_i e' heq
          injection h with h'
          exact h' ▸ ih _ _ heq
        · exact absurd h (by simp)
      · injection h with h'; exact h'.symm
    · injection h with h'; exact h'.symm

/-- Inversion of a successful offset loop: every tensor passed both checks,
the offsets are the running prefix totals, and the final total adds the sum
of the byte sizes. -/
lemma offsetsLoop_ok : ∀ (inputs : List Tensor) (total : Nat) (offs : List Nat)
    (tot : Nat), offsetsLoop inputs total = .ok (offs, tot) →
    (∀ t ∈ inputs, t.data.length = t.numElements * 4 ∧ 0 < t.data.length) ∧
    offs = prefixTotals total (inputs.map (fun t => t.data.length)) ∧
    tot = total + sumBytes inputs := by
  intro inputs
  induction inputs with
  | nil =>
    intro total offs tot h
    simp only [offsetsLoop, Except.ok.injEq, Prod.mk.injEq] at h
    simp [prefixTotals, sumBytes, h.1.symm, h.2.symm]
  | cons t rest ih =>
    intro total offs tot h
    simp only [offsetsLoop] at h
    split at h
    · rename_i hs
      split at h
      · rename_i hpos
        cases heq : offsetsLoop rest (total + t.data.length) with
        | error e => rw [heq] at h; exact absurd h (by simp)
        | ok p =>
          obtain ⟨offs', tot'⟩ := p
          rw [heq] at h
          simp only [Except.ok.injEq, Prod.mk.injEq] at h
          obtain ⟨hchecks, hoffs, htot⟩ := ih _ _ _ heq
          refine ⟨?_, ?_, ?_⟩
          · intro u hu
            rcases List.mem_cons.mp hu with h' | h'
            · exact h' ▸ ⟨hs, hpos⟩
            · exact hchecks u h'
          · rw [← h.1, List.map_cons, prefixTotals, hoffs]
          · rw [← h.2, htot]
            simp [sumBytes]
            omega
      · exact absurd h (by simp)
    · exact absurd h (by simp)

/-- The offset loop succeeds whenever every tensor passes both checks. -/
lemma offsetsLoop_ok_of : ∀ (inputs : List Tensor) (total : Nat),
    (∀ t ∈ inputs, t.data.length = t.numElements * 4 ∧ 0 < t.data.length) →
    offsetsLoop inputs total =
      .ok (prefixTotals total (inputs.map (fun t => t.data.length)),
           total + sumBytes inputs) := by
  intro inputs
  induction inputs with
  | nil => intro total _; simp [offsetsLoop, prefixTotals, sumBytes]
  | cons t rest ih =>
    intro total hchecks
    have ht := hchecks t (List.mem_cons_self t rest)
    have hrest : ∀ u ∈ rest, u.data.length = u.numElements * 4 ∧
        0 < u.data.length := fun u hu => hchecks u (List.mem_cons_of_mem t hu)
    simp only [offsetsLoop, if_pos ht.1, if_pos ht.2, ih _ hrest]
    simp [prefixTotals, sumBytes]
    omega

/-- Element `k` of the offset table headed by the running total `b` is `b`
plus the sum of the first `k` sizes. -/
lemma prefixTotals_get? : ∀ (l : List Nat) (b k : Nat), k ≤ l.length →
    (b :: prefixTotals b l).get? k = some (b + (l.take k).sum) := by
  intro l
  induction l with
  | nil =>
    intro b k hk
    have hk0 : k = 0 := Nat.le_zero.mp hk
    subst hk0
    simp
  | cons s rest ih =>
    intro b k hk
    cases k with
    | zero => simp
    | succ k =>
      have := ih (b + s) k (by simpa using hk)
      simp only [prefixTotals, List.get?]
      rw [this]
      simp [Nat.add_assoc]

/-- Length of the prefix-total table. -/
lemma prefixTotals_length : ∀ (l : List Nat) (b : Nat),
    (prefixTotals b l).length = l.length := by
  intro l
  induction l with
  | nil => intro b; simp [prefixTotals]
  | cons s rest ih => intro b; simp [prefixTotals, ih]

/-- Sum of a take of one more element. -/
lemma sum_take_succ_of_get? : ∀ (l : List Nat) (k x : Nat), l.get? k = some x →
    (l.take (k + 1)).sum = (l.take k).sum + x := by
  intro l
  induction l with
  | nil => intro k x h; simp at h
  | cons s rest ih =>
    intro k x h
    cases k with
    | zero => simp at h; simp [h]
    | succ k =>
      simp only [List.get?] at h
      simp only [List.take, List.sum_cons, ih _ _ h]
      omega

/-- Sums of takes are monotone in the length taken. -/
lemma sum_take_le_sum_take (l : List Nat) (j k : Nat) (hjk : j ≤ k) :
    (l.take j).sum ≤ (l.take k).sum := by
  have h1 : (l.take k).take j = l.take j := by
    rw [List.take_take, Nat.min_eq_left hjk]
  have h2 : ((l.take k).take j).sum + ((l.take k).drop j).sum = (l.take k).sum := by
    rw [← List.sum_append, List.take_append_drop]
  rw [h1] at h2
  omega

/-- C6: for every Put over N ≥ 1 input tensors whose offset computation
succeeds, the offset table has length N+1, starts at 0, steps from entry k
to entry k+1 by the byte size of tensor k, is monotone (indeed strictly
increasing, hence in particular non-decreasing), and its last entry — and
the returned total — equal the sum of all per-tensor byte sizes. -/
theorem c6_offset_table_properties (inputs : List Tensor) (offs : List Nat)
    (total : Nat) (h : computeOffsets inputs = .ok (offs, total)) :
    offs.length = inputs.length + 1 ∧
    offs.get? 0 = some 0 ∧
    (∀ k t, inputs.get? k = some t →
      ∃ a, offs.get? k = some a ∧ offs.get? (k + 1) = some (a + t.data.length)) ∧
    (∀ j k a b, j ≤ k → offs.get? j = some a → offs.get? k = some b → a ≤ b) ∧
    (∀ j k a b, j < k → offs.get? j = some a → offs.get? k = some b → a < b) ∧
    offs.get? inputs.length = some (sumBytes inputs) ∧
    total = sumBytes inputs := by
  simp only [computeOffsets] at h
  cases heq : offsetsLoop inputs 0 with
  | error e => rw [heq] at h; exact absurd h (by simp)
  | ok p =>
    obtain ⟨offs0, tot⟩ := p
    rw [heq] at h
    simp only [Except.ok.injEq, Prod.mk.injEq] at h
    obtain ⟨hchecks, hoffs0, htot⟩ := offsetsLoop_ok _ _ _ _ heq
    have hoffs : offs = 0 :: prefixTotals 0 (inputs.map (fun t => t.data.length)) := by
      rw [← h.1, hoffs0]
    have htotal : total = sumBytes inputs := by rw [← h.2, htot]; simp
    have hlen_sizes : (inputs.map (fun t => t.data.length)).length = inputs.length := by
      simp
    have hget : ∀ k, k ≤ inputs.length →
        offs.get? k = some (((inputs.map (fun t => t.data.length)).take k).sum) := by
      intro k hk
      rw [hoffs]
      have := prefixTotals_get? (inputs.map (fun t => t.data.length)) 0 k
        (by omega)
      simpa using this
    have hsize_get : ∀ k t, inputs.get? k = some t →
        (inputs.map (fun t => t.data.length)).get? k = some t.data.length := by
      intro k t hkt
      rw [List.get?_map, hkt]
      rfl
    have hpos : ∀ k x, (inputs.map (fun t => t.data.length)).get? k = some x →
        0 < x := by
      intro k x hx
      rw [List.get?_map] at hx
      cases hti : inputs.get? k with
      | none => rw [hti] at hx; exact absurd hx (by simp)
      | some t =>
        rw [hti] at hx
        have hx' : t.data.length = x := by simpa using hx
        have h2 := (hchecks t (List.get?_mem hti)).2
        omega
    have hbound : ∀ k a, offs.get? k = some a → k ≤ inputs.length := by
      intro k a hka
      by_contra hc
      rw [List.get?_eq_none.mpr (by rw [hoffs]; simp [prefixTotals_length]; omega)] at hka
      exact absurd hka (by simp)
    refine ⟨?_, ?_, ?_, ?_, ?_, ?_, htotal⟩
    · rw [hoffs]; simp [prefixTotals_length]
    · have := hget 0 (Nat.zero_le _)
      simpa using this
    · intro k t hkt
      have hk : k < inputs.length := by
        by_contra hc
        rw [List.get?_eq_none.mpr (by omega)] at hkt
        exact absurd hkt (by simp)
      refine ⟨((inputs.map (fun t => t.data.length)).take k).sum,
        hget k (by omega), ?_⟩
      rw [hget (k + 1) (by omega),
        sum_take_succ_of_get? _ _ _ (hsize_get k t hkt)]
    · intro j k a b hjk hja hjb
      have haj := hget j (hbound j a hja)
      have hbk := hget k (hbound k b hjb)
      rw [hja] at haj
      rw [hjb] at hbk
      have hmono := sum_take_le_sum_take (inputs.map (fun t => t.data.length)) j k hjk
      injection haj with haj
      injection hbk with hbk
      omega
    · intro j k a b hjk hja hjb
      have hkn := hbound k b hjb
      have haj := hget j (by omega)
      have hbk := hget k hkn
      rw [hja] at haj
      rw [hjb] at hbk
      injection haj with haj
      injection hbk with hbk
      have hjlen : j < (inputs.map (fun t => t.data.length)).length := by
        rw [hlen_sizes]; omega
      cases hsj : (inputs.map (fun t => t.data.length)).get? j with
      | none =>
        rw [List.get?_eq_none] at hsj
        omega
      | some x =>
        have hxpos := hpos j x hsj
        have hstep := sum_take_succ_of_get? _ _ _ hsj
        have hmono := sum_take_le_sum_take (inputs.map (fun t => t.data.length))
          (j + 1) k (by omega)
        omega
    · rw [hget inputs.length (Nat.le_refl _), ← hlen_sizes, List.take_length]
      rfl

/-- Witness for C6 at the spec's concrete scenario: two float32 tensors of
16 and 32 bytes produce the offset table [0, 16, 48] whose last entry is the
total payload size 48. -/
theorem c6_offset_table_properties_witness :
    computeOffsets [⟨.DT_FLOAT, 4, List.replicate 16 1⟩,
        ⟨.DT_FLOAT, 8, List.replicate 32 2⟩]
      = .ok ([0, 16, 48], 48) ∧
    ([0, 16, 48] : List Nat).get? 2
      = some (sumBytes [⟨.DT_FLOAT, 4, List.replicate 16 1⟩,
          ⟨.DT_FLOAT, 8, List.replicate 32 2⟩]) :=
  ⟨rfl,
   (c6_offset_table_properties
     [⟨.DT_FLOAT, 4, List.replicate 16 1⟩, ⟨.DT_FLOAT, 8, List.replicate 32 2⟩]
     [0, 16, 48] 48 rfl).2.2.2.2.2.1⟩

/-- C4: a Put with zero input tensors (`num_inputs = 1`, only the object-id
input) returns the `InvalidArgument` status after calling `done` once; its
event list contains no store call whatsoever and the store is unchanged, so
no object is created. -/
theorem c4_put_zero_tensors (dev : Device) (ser : SerializeFn)
    (st : PlasmaStore) (idt : IdTensor) (gpu : GpuCtx) :
    (TensorToPlasmaOp_ComputeAsync dev ser st [] idt gpu).outcome
      = .errorStatus .invalidArgument ∧
    (TensorToPlasmaOp_ComputeAsync dev ser st [] idt gpu).store = st ∧
    (TensorToPlasmaOp_ComputeAsync dev ser st [] idt gpu).events
      = [.doneCalled] :=
  ⟨rfl, rfl, rfl⟩

/-- C10: whenever the header of an accepted (dtype, shape) pair fits in the
destination buffer — in the Put pipeline the buffer has size headerBytes +
payloadBytes, so it always does — the payload offset reported by
`TensorFlowTensorWrite` equals the byte count reported by
`TensorFlowTensorGetHeaderSize` for the same dtype and shape, and the
buffer keeps its size. -/
theorem c10_write_offset_eq_header_size (ser : SerializeFn) (d : ArrowType)
    (sh : List Nat) (buffer : List Nat) (h : Nat)
    (hh : TensorFlowTensorGetHeaderSize ser d sh = .ok h)
    (hfit : h ≤ buffer.length) :
    ∃ buf2, TensorFlowTensorWrite ser d sh buffer = .ok (h, buf2) ∧
      buf2.length = buffer.length := by
  simp only [TensorFlowTensorGetHeaderSize] at hh
  cases hser : ser ⟨d, [], sh⟩ with
  | error e => rw [hser] at hh; exact absurd hh (by simp)
  | ok bytes =>
    rw [hser] at hh
    injection hh with hlen
    refine ⟨bytes ++ buffer.drop bytes.length, ?_, ?_⟩
    · simp only [TensorFlowTensorWrite, hser]
      rw [if_pos (by omega), hlen]
    · simp only [List.length_append, List.length_drop]
      omega

/-- Witness for C10 at a concrete serializer and an 8-byte buffer. -/
theorem c10_write_offset_eq_header_size_witness :
    TensorFlowTensorGetHeaderSize ser0 .float32 [1] = .ok 4 ∧
    ∃ buf2, TensorFlowTensorWrite ser0 .float32 [1] (List.replicate 8 0)
        = .ok (4, buf2) ∧
      buf2.length = (List.replicate 8 0 : List Nat).length :=
  ⟨rfl, c10_write_offset_eq_header_size ser0 .float32 [1]
    (List.replicate 8 0) 4 rfl (by simp)⟩

/-- Counterexample to C1 as stated: one float32 tensor of bytes [1,2,3,4]
Put under "x" (with a serializer whose header is the 4 bytes [9,9,9,9]) and
then Get on "x" returns a tensor of 2 elements whose bytes are the header
followed by the payload — not the concatenation of the inputs.  Get copies
the object from byte 0 and never skips the header (tf_plasma_op.cc lines
319-331). -/
theorem c1_roundtrip_counterexample :
    (PlasmaToTensorOp_ComputeAsync .cpu
        (TensorToPlasmaOp_ComputeAsync .cpu ser0 emptyStore
          [⟨.DT_FLOAT, 1, [1, 2, 3, 4]⟩] ⟨1, "x"⟩ gpu0).store
        ⟨1, "x"⟩ gpu0 true).output
      = some (2, [9, 9, 9, 9, 1, 2, 3, 4]) ∧
    ([9, 9, 9, 9, 1, 2, 3, 4] : List Nat) ≠
      (([⟨.DT_FLOAT, 1, [1, 2, 3, 4]⟩] : List Tensor).map
        (fun t => t.data)).flatten := by
  exact ⟨rfl, by decide⟩

/-- Counterexample to C3 as stated: Get on a sealed 5-byte object (5 is not
divisible by the element width 4) does not fail with `InvalidArgument`; it
derives the truncated shape 5 / 4 = 1, allocates the output tensor, copies
and returns OK. -/
theorem c3_divisibility_counterexample :
    (PlasmaToTensorOp_ComputeAsync .cpu ⟨[], [("x", [9, 9, 9, 9, 9])]⟩
        ⟨1, "x"⟩ gpu0 true).outcome = .ok ∧
    (PlasmaToTensorOp_ComputeAsync .cpu ⟨[], [("x", [9, 9, 9, 9, 9])]⟩
        ⟨1, "x"⟩ gpu0 true).outcome ≠ .errorStatus .invalidArgument ∧
    Event.allocateOutput 1 ∈
      (PlasmaToTensorOp_ComputeAsync .cpu ⟨[], [("x", [9, 9, 9, 9, 9])]⟩
        ⟨1, "x"⟩ gpu0 true).events ∧
    (PlasmaToTensorOp_ComputeAsync .cpu ⟨[], [("x", [9, 9, 9, 9, 9])]⟩
        ⟨1, "x"⟩ gpu0 true).output = some (1, [9, 9, 9, 9, 9]) ∧
    5 % 4 ≠ 0 := by
  refine ⟨rfl, by decide, by decide, rfl, by decide⟩

/-- Counterexample to C5 as stated: a Put whose second tensor is a float64
tensor (8 bytes for 1 element) dies on the offset loop's fatal
`CHECK_EQ(TotalBytes, NumElements * sizeof(float))` — a size-check abort,
not a `TypeMismatch`/`TypeError` — because the size checks at lines 148-151
run before the dtype check at lines 156-163. -/
theorem c5_mismatch_counterexample :
    (TensorToPlasmaOp_ComputeAsync .cpu ser0 emptyStore
        [⟨.DT_FLOAT, 1, [1, 2, 3, 4]⟩, ⟨.DT_DOUBLE, 1, [1, 2, 3, 4, 5, 6, 7, 8]⟩]
        ⟨1, "x"⟩ gpu0).outcome = .crash .checkFailed ∧
    (TensorToPlasmaOp_ComputeAsync .cpu ser0 emptyStore
        [⟨.DT_FLOAT, 1, [1, 2, 3, 4]⟩, ⟨.DT_DOUBLE, 1, [1, 2, 3, 4, 5, 6, 7, 8]⟩]
        ⟨1, "x"⟩ gpu0).outcome ≠ .crash .typeError ∧
    (⟨.DT_DOUBLE, 1, [1, 2, 3, 4, 5, 6, 7, 8]⟩ : Tensor).dtype ≠
      (⟨.DT_FLOAT, 1, [1, 2, 3, 4]⟩ : Tensor).dtype := by
  refine ⟨rfl, by decide, by decide⟩

/-- Counterexample to C9 as stated: a Put whose object id already exists in
the store dies inside `ARROW_CHECK_OK(client_.Create(...))` — a store
failure is one of the exit paths the claim covers — and the completion
callback is never invoked (zero `done` calls, not one). -/
theorem c9_callback_counterexample :
    fullPutRun .cpu ser0 ⟨[], [("x", [1])]⟩ [⟨.DT_FLOAT, 1, [1, 2, 3, 4]⟩]
        ⟨1, "x"⟩ gpu0
      = ([.headerSizeCalled .float32 [1], .createCalled "x" 8],
         .crash .storeError) ∧
    countDone [.headerSizeCalled .float32 [1], .createCalled "x" 8] = 0 := by
  refine ⟨rfl, by decide⟩

/-- C3 amended: for every Get that finds a sealed object, the derived flat
shape is the truncating division byteSize / 4 and (when the allocator
cooperates) the output allocation is performed with exactly that element
count; no Get path ever produces an `InvalidArgument` status — byte sizes
that are not divisible by the element width are not rejected. -/
theorem c3_amended_truncating_shape (dev : Device) (st : PlasmaStore)
    (idt : IdTensor) (gpu : GpuCtx) (allocOk : Bool) (bytes : List Nat)
    (hid : idt.numElements = 1)
    (hobj : PlasmaStore.getSealed st idt.value = some bytes) :
    (allocOk = true →
      Event.allocateOutput (bytes.length / 4) ∈
        (PlasmaToTensorOp_ComputeAsync dev st idt gpu allocOk).events) ∧
    (PlasmaToTensorOp_ComputeAsync dev st idt gpu allocOk).outcome
      ≠ .errorStatus .invalidArgument := by
  simp only [PlasmaToTensorOp_ComputeAsync, hid, hobj]
  cases allocOk with
  | false => simp
  | true =>
    cases dev with
    | cpu => simp
    | gpu =>
      cases gpu.hasStream <;> cases h0 : gpu.enqueueOk 0 <;>
        cases gpu.waitOk <;> simp

/-- Witness for the amended C3 at the 5-byte object. -/
theorem c3_amended_truncating_shape_witness :
    PlasmaStore.getSealed ⟨[], [("x", [9, 9, 9, 9, 9])]⟩ "x"
      = some [9, 9, 9, 9, 9] ∧
    (Event.allocateOutput 1 ∈
      (PlasmaToTensorOp_ComputeAsync .cpu ⟨[], [("x", [9, 9, 9, 9, 9])]⟩
        ⟨1, "x"⟩ gpu0 true).events) :=
  ⟨rfl, (c3_amended_truncating_shape .cpu ⟨[], [("x", [9, 9, 9, 9, 9])]⟩
    ⟨1, "x"⟩ gpu0 true [9, 9, 9, 9, 9] rfl rfl).1 rfl⟩

/-- C5 amended: a Put whose inputs do not all share the first tensor's
element type always fails before any store-client call, but the failure is
the `TypeError` abort only when every tensor's byte size equals 4 bytes per
element (same-width mismatches); otherwise the offset loop's fatal size
check, which runs first, aborts the call. -/
theorem c5_amended_mismatch (dev : Device) (ser : SerializeFn)
    (st : PlasmaStore) (idt : IdTensor) (gpu : GpuCtx) (t0 : Tensor)
    (rest : List Tensor) (hmm : ∃ t ∈ rest, t.dtype ≠ t0.dtype) :
    (∀ id size, Event.createCalled id size ∉
      (TensorToPlasmaOp_ComputeAsync dev ser st (t0 :: rest) idt gpu).events) ∧
    ((TensorToPlasmaOp_ComputeAsync dev ser st (t0 :: rest) idt gpu).outcome
        = .crash .checkFailed ∨
     (TensorToPlasmaOp_ComputeAsync dev ser st (t0 :: rest) idt gpu).outcome
        = .crash .typeError) ∧
    ((∀ t ∈ t0 :: rest, t.data.length = t.numElements * 4 ∧ 0 < t.data.length) →
      (TensorToPlasmaOp_ComputeAsync dev ser st (t0 :: rest) idt gpu).outcome
        = .crash .typeError) := by
  have hany : (rest.any (fun t => t.dtype != t0.dtype)) = true := by
    obtain ⟨t, ht, hne⟩ := hmm
    exact List.any_eq_true.mpr ⟨t, ht, by simpa using hne⟩
  cases heq : computeOffsets (t0 :: rest) with
  | error e =>
    have he : e = .checkFailed := by
      simp only [computeOffsets] at heq
      cases h2 : offsetsLoop (t0 :: rest) 0 with
      | error e2 =>
        rw [h2] at heq
        injection heq with h3
        exact h3 ▸ offsetsLoop_error _ _ _ h2
      | ok p =>
        obtain ⟨a, b⟩ := p
        rw [h2] at heq
        exact absurd heq (by simp)
    subst he
    simp only [TensorToPlasmaOp_ComputeAsync, heq]
    refine ⟨by simp, Or.inl (by simp), ?_⟩
    intro hchecks
    have hok := offsetsLoop_ok_of (t0 :: rest) 0 hchecks
    simp only [computeOffsets, hok] at heq
    exact absurd heq (by simp)
  | ok p =>
    obtain ⟨offsets, total⟩ := p
    simp only [TensorToPlasmaOp_ComputeAsync, heq, hany]
    exact ⟨by simp, Or.inr rfl, fun _ => rfl⟩

/-- Witness for the amended C5 at a same-width dtype mismatch (int32 behind
float32): the failure is the TypeError abort, before any store call. -/
theorem c5_amended_mismatch_witness :
    (TensorToPlasmaOp_ComputeAsync .cpu ser0 emptyStore
        [⟨.DT_FLOAT, 1, [1, 2, 3, 4]⟩, ⟨.DT_INT32, 1, [5, 6, 7, 8]⟩]
        ⟨1, "x"⟩ gpu0).outcome = .crash .typeError :=
  (c5_amended_mismatch .cpu ser0 emptyStore ⟨1, "x"⟩ gpu0
      ⟨.DT_FLOAT, 1, [1, 2, 3, 4]⟩ [⟨.DT_INT32, 1, [5, 6, 7, 8]⟩]
      ⟨⟨.DT_INT32, 1, [5, 6, 7, 8]⟩, by decide, by decide⟩).2.2 (by decide)

/-- Byte-size sum of a cons. -/
lemma sumBytes_cons (t : Tensor) (rest : List Tensor) :
    sumBytes (t :: rest) = t.data.length + sumBytes rest := by
  simp [sumBytes]

/-- A memcpy that lands exactly at the frontier between the already-written
prefix and the zero-initialized remainder. -/
lemma writeBytesAt_exact (acc src : List Nat) (m : Nat) :
    writeBytesAt (acc ++ List.replicate (src.length + m) 0) acc.length src
      = acc ++ src ++ List.replicate m 0 := by
  unfold writeBytesAt
  have htake : (acc ++ List.replicate (src.length + m) 0).take acc.length
      = acc := List.take_left acc _
  have hdrop : (acc ++ List.replicate (src.length + m) 0).drop
      (acc.length + src.length) = List.replicate m 0 := by
    rw [List.replicate_add, ← List.append_assoc]
    exact List.drop_left' (by simp)
  rw [htake, hdrop, List.append_assoc]

/-- The copy loop writes the concatenation of the tensors' bytes directly
after the already-written prefix `acc` (the header), consuming the
zero-initialized payload region of the freshly created buffer. -/
lemma cpuCopyLoop_fills : ∀ (inputs : List Tensor) (base start : Nat)
    (acc : List Nat), (∀ t ∈ inputs, 4 ∣ t.data.length) → 4 ∣ start →
    acc.length = base + start →
    cpuCopyLoop base inputs
        (start :: prefixTotals start (inputs.map (fun t => t.data.length)))
        (acc ++ List.replicate (sumBytes inputs) 0)
      = acc ++ (inputs.map (fun t => t.data)).flatten := by
  intro inputs
  induction inputs with
  | nil =>
    intro base start acc _ _ _
    simp [cpuCopyLoop, prefixTotals, sumBytes]
  | cons t rest ih =>
    intro base start acc hdvd hstart hacc
    have hpos : base + start / 4 * 4 = acc.length := by
      rw [Nat.div_mul_cancel hstart, hacc]
    have hsub : start + t.data.length - start = t.data.length := by omega
    simp only [List.map_cons, prefixTotals, cpuCopyLoop, hsub,
      List.take_length t.data, sumBytes_cons, hpos]
    rw [writeBytesAt_exact acc t.data (sumBytes rest)]
    have hrec := ih base (start + t.data.length) (acc ++ t.data)
      (fun u hu => hdvd u (List.mem_cons_of_mem t hu))
      (Nat.dvd_add hstart (hdvd t (List.mem_cons_self t rest)))
      (by simp [hacc]; omega)
    rw [hrec, List.flatten_cons, ← List.append_assoc]

/-- C1 amended: on the host path, Put of a nonempty uniform-dtype sequence
of width-4 tensors under a fresh id, followed by Get on the same id, returns
a flat tensor whose bytes are the store object's full contents: the
serialized header followed by the byte-wise concatenation of the inputs in
input order (the concatenation starts at the header offset; the output is
not the concatenation alone, since Get copies the object from byte 0). -/
theorem c1_amended_roundtrip (ser : SerializeFn) (st : PlasmaStore)
    (gpu gpu2 : GpuCtx) (idt : IdTensor) (t0 : Tensor) (rest : List Tensor)
    (ad : ArrowType) (hdr : List Nat)
    (hw : ∀ t ∈ t0 :: rest, t.data.length = t.numElements * 4 ∧ 0 < t.data.length)
    (hdt : ∀ t ∈ rest, t.dtype = t0.dtype)
    (hid : idt.numElements = 1)
    (harrow : tf_dtype_to_arrow t0.dtype = .ok ad)
    (hser : ser ⟨ad, [], [sumBytes (t0 :: rest) / 4]⟩ = .ok hdr)
    (hfresh : st.containsId idt.value = false) :
    (TensorToPlasmaOp_ComputeAsync .cpu ser st (t0 :: rest) idt gpu).outcome
      = .ok ∧
    (PlasmaToTensorOp_ComputeAsync .cpu
        (TensorToPlasmaOp_ComputeAsync .cpu ser st (t0 :: rest) idt gpu).store
        idt gpu2 true).output
      = some ((hdr.length + sumBytes (t0 :: rest)) / 4,
              hdr ++ ((t0 :: rest).map (fun t => t.data)).flatten) := by
  have hco : computeOffsets (t0 :: rest)
      = .ok (0 :: prefixTotals 0 ((t0 :: rest).map (fun t => t.data.length)),
             sumBytes (t0 :: rest)) := by
    have hoffs := offsetsLoop_ok_of (t0 :: rest) 0 hw
    simp only [computeOffsets, hoffs, Nat.zero_add]
  have hany : (rest.any (fun t => t.dtype != t0.dtype)) = false := by
    rw [List.any_eq_false]
    intro t ht
    simpa using hdt t ht
  have hhs : TensorFlowTensorGetHeaderSize ser ad [sumBytes (t0 :: rest) / 4]
      = .ok hdr.length := by
    simp only [TensorFlowTensorGetHeaderSize, hser]
  have hcreate : PlasmaStore.create st idt.value
      (hdr.length + sumBytes (t0 :: rest))
      = .ok (⟨(idt.value,
               List.replicate (hdr.length + sumBytes (t0 :: rest)) 0)
              :: st.pending, st.sealed⟩,
          List.replicate (hdr.length + sumBytes (t0 :: rest)) 0) := by
    simp [PlasmaStore.create, hfresh]
  have hwrite : TensorFlowTensorWrite ser ad [sumBytes (t0 :: rest) / 4]
      (List.replicate (hdr.length + sumBytes (t0 :: rest)) 0)
      = .ok (hdr.length, hdr ++ List.replicate (sumBytes (t0 :: rest)) 0) := by
    simp only [TensorFlowTensorWrite, hser]
    rw [if_pos (by simp)]
    rw [List.drop_replicate, Nat.add_sub_cancel_left]
  have hcopy : cpuCopyLoop hdr.length (t0 :: rest)
      (0 :: prefixTotals 0 ((t0 :: rest).map (fun t => t.data.length)))
      (hdr ++ List.replicate (sumBytes (t0 :: rest)) 0)
      = hdr ++ ((t0 :: rest).map (fun t => t.data)).flatten := by
    refine cpuCopyLoop_fills (t0 :: rest) hdr.length 0 hdr ?_ (dvd_zero 4) (by omega)
    intro t ht
    rw [(hw t ht).1]
    exact Dvd.intro_left _ rfl
  have hseal : PlasmaStore.seal
      ⟨(idt.value, List.replicate (hdr.length + sumBytes (t0 :: rest)) 0)
        :: st.pending, st.sealed⟩
      idt.value (hdr ++ ((t0 :: rest).map (fun t => t.data)).flatten)
      = .ok ⟨((idt.value,
               List.replicate (hdr.length + sumBytes (t0 :: rest)) 0)
              :: st.pending).filter (fun p => !(p.1 == idt.value)),
             (idt.value, hdr ++ ((t0 :: rest).map (fun t => t.data)).flatten)
              :: st.sealed⟩ := by
    simp [PlasmaStore.seal]
  have hput : TensorToPlasmaOp_ComputeAsync .cpu ser st (t0 :: rest) idt gpu
      = ⟨[.headerSizeCalled ad [sumBytes (t0 :: rest) / 4],
          .createCalled idt.value (hdr.length + sumBytes (t0 :: rest)),
          .sealCalled idt.value, .doneCalled],
         .ok,
         ⟨((idt.value,
            List.replicate (hdr.length + sumBytes (t0 :: rest)) 0)
           :: st.pending).filter (fun p => !(p.1 == idt.value)),
          (idt.value, hdr ++ ((t0 :: rest).map (fun t => t.data)).flatten)
           :: st.sealed⟩,
         []⟩ := by
    simp only [TensorToPlasmaOp_ComputeAsync, hco, hany, hid, harrow, hhs,
      hcreate, hwrite, hcopy, hseal]
    simp
  have hlen : (hdr ++ ((t0 :: rest).map (fun t => t.data)).flatten).length
      = hdr.length + sumBytes (t0 :: rest) := by
    simp [List.length_flatten, List.map_map, sumBytes, Function.comp_def]
  rw [hput]
  refine ⟨rfl, ?_⟩
  have hget : PlasmaStore.getSealed
      ⟨((idt.value,
         List.replicate (hdr.length + sumBytes (t0 :: rest)) 0)
        :: st.pending).filter (fun p => !(p.1 == idt.value)),
       (idt.value, hdr ++ ((t0 :: rest).map (fun t => t.data)).flatten)
        :: st.sealed⟩
      idt.value
      = some (hdr ++ ((t0 :: rest).map (fun t => t.data)).flatten) := by
    simp [PlasmaStore.getSealed]
  simp only [PlasmaToTensorOp_ComputeAsync, hid, hget]
  simp [hlen, sumBytes, Function.comp_def]

/-- Witness for the amended C1 at the spec's concrete scenario shape: two
float32 tensors of 4 and 12 bytes, a 4-byte header, fresh id "x". -/
theorem c1_amended_roundtrip_witness :
    (TensorToPlasmaOp_ComputeAsync .cpu ser0 emptyStore
        [⟨.DT_FLOAT, 1, [1, 2, 3, 4]⟩,
         ⟨.DT_FLOAT, 2, [5, 6, 7, 8, 9, 10, 11, 12]⟩]
        ⟨1, "x"⟩ gpu0).outcome = .ok ∧
    (PlasmaToTensorOp_ComputeAsync .cpu
        (TensorToPlasmaOp_ComputeAsync .cpu ser0 emptyStore
          [⟨.DT_FLOAT, 1, [1, 2, 3, 4]⟩,
           ⟨.DT_FLOAT, 2, [5, 6, 7, 8, 9, 10, 11, 12]⟩]
          ⟨1, "x"⟩ gpu0).store ⟨1, "x"⟩ gpu0 true).output
      = some (4, [9, 9, 9, 9, 1, 2, 3, 4, 5, 6, 7, 8, 9, 10, 11, 12]) :=
  c1_amended_roundtrip ser0 emptyStore gpu0 gpu0 ⟨1, "x"⟩
    ⟨.DT_FLOAT, 1, [1, 2, 3, 4]⟩ [⟨.DT_FLOAT, 2, [5, 6, 7, 8, 9, 10, 11, 12]⟩]
    .float32 [9, 9, 9, 9] (by decide) (by decide) rfl rfl rfl rfl

/-- Inversion of a successful offset computation. -/
lemma computeOffsets_ok (inputs : List Tensor) (offs : List Nat) (total : Nat)
    (h : computeOffsets inputs = .ok (offs, total)) :
    (∀ t ∈ inputs, t.data.length = t.numElements * 4 ∧ 0 < t.data.length) ∧
    offs = 0 :: prefixTotals 0 (inputs.map (fun t => t.data.length)) ∧
    total = sumBytes inputs := by
  simp only [computeOffsets] at h
  cases h2 : offsetsLoop inputs 0 with
  | error e => rw [h2] at h; exact absurd h (by simp)
  | ok p =>
    obtain ⟨offs0, tot0⟩ := p
    rw [h2] at h
    simp only [Except.ok.injEq, Prod.mk.injEq] at h
    obtain ⟨hchecks, hoffs0, htot0⟩ := offsetsLoop_ok _ _ _ _ h2
    exact ⟨hchecks, by rw [← h.1, hoffs0], by rw [← h.2, htot0]; omega⟩

/-- C7: every Put call that reaches the store — performs a Create call —
asked the serialization layer for the header size of a 1-D tensor shaped
[totalPayloadBytes / 4] in the arrow image of the inputs' uniform element
type, and created the object with size exactly headerBytes +
totalPayloadBytes.  The element width of every input on such a call is
pinned to 4 bytes by the size checks, so 4 is the inputs' element width. -/
theorem c7_create_size (dev : Device) (ser : SerializeFn) (st : PlasmaStore)
    (inputs : List Tensor) (idt : IdTensor) (gpu : GpuCtx) (id : String)
    (size : Nat)
    (hc : Event.createCalled id size ∈
      (TensorToPlasmaOp_ComputeAsync dev ser st inputs idt gpu).events) :
    ∃ t0 rest ad h, inputs = t0 :: rest ∧
      tf_dtype_to_arrow t0.dtype = .ok ad ∧
      (∀ t ∈ inputs, t.dtype = t0.dtype) ∧
      (∀ t ∈ inputs, t.data.length = t.numElements * 4 ∧ 0 < t.data.length) ∧
      TensorFlowTensorGetHeaderSize ser ad [sumBytes inputs / 4] = .ok h ∧
      Event.headerSizeCalled ad [sumBytes inputs / 4] ∈
        (TensorToPlasmaOp_ComputeAsync dev ser st inputs idt gpu).events ∧
      id = idt.value ∧ size = h + sumBytes inputs := by
  cases inputs with
  | nil => simp [TensorToPlasmaOp_ComputeAsync] at hc
  | cons t0 rest =>
    cases hco : computeOffsets (t0 :: rest) with
    | error e => simp [TensorToPlasmaOp_ComputeAsync, hco] at hc
    | ok p =>
      obtain ⟨offsets, total⟩ := p
      obtain ⟨hchecks, hoffsets, htotal⟩ := computeOffsets_ok _ _ _ hco
      subst htotal
      cases hany : (rest.any (fun t => t.dtype != t0.dtype)) with
      | true => simp [TensorToPlasmaOp_ComputeAsync, hco, hany] at hc
      | false =>
        have hdtAll : ∀ t ∈ t0 :: rest, t.dtype = t0.dtype := by
          intro t ht
          rcases List.mem_cons.mp ht with h' | h'
          · rw [h']
          · have h2 := List.any_eq_false.mp hany t h'
            simpa using h2
        by_cases hnid : idt.numElements = 1
        case neg => simp [TensorToPlasmaOp_ComputeAsync, hco, hany, hnid] at hc
        case pos =>
        cases harrow : tf_dtype_to_arrow t0.dtype with
        | error e =>
          simp [TensorToPlasmaOp_ComputeAsync, hco, hany, hnid, harrow] at hc
        | ok ad =>
        cases hhs : TensorFlowTensorGetHeaderSize ser ad
            [sumBytes (t0 :: rest) / 4] with
        | error e =>
          simp [TensorToPlasmaOp_ComputeAsync, hco, hany, hnid, harrow, hhs] at hc
        | ok h =>
        have hkey : (id = idt.value ∧ size = h + sumBytes (t0 :: rest)) ∧
            Event.headerSizeCalled ad [sumBytes (t0 :: rest) / 4] ∈
              (TensorToPlasmaOp_ComputeAsync dev ser st (t0 :: rest) idt gpu).events := by
          simp [TensorToPlasmaOp_ComputeAsync, hco, hany, hnid, harrow,
            hhs] at hc ⊢
          refine ⟨?_, ?_⟩
          · repeat' split at hc
            all_goals (try simp at hc)
            all_goals tauto
          · repeat' split
            all_goals simp
        exact ⟨t0, rest, ad, h, rfl, harrow, hdtAll, hchecks, hhs,
          hkey.2, hkey.1.1, hkey.1.2⟩

/-- The offset loop depends only on the element counts and byte sizes of
the tensors, never on their byte contents. -/
lemma offsetsLoop_congr : ∀ (ts1 ts2 : List Tensor) (total : Nat),
    ts1.map (fun t => t.numElements) = ts2.map (fun t => t.numElements) →
    ts1.map (fun t => t.data.length) = ts2.map (fun t => t.data.length) →
    offsetsLoop ts1 total = offsetsLoop ts2 total := by
  intro ts1
  induction ts1 with
  | nil =>
    intro ts2 total h1 _
    cases ts2 with
    | nil => rfl
    | cons u r2 => exact absurd h1 (by simp)
  | cons t r ih =>
    intro ts2 total h1 h2
    cases ts2 with
    | nil => exact absurd h1 (by simp)
    | cons u r2 =>
      simp only [List.map_cons, List.cons.injEq] at h1 h2
      obtain ⟨hn0, hnr⟩ := h1
      obtain ⟨hl0, hlr⟩ := h2
      simp only [offsetsLoop, hn0, hl0, ih r2 (total + u.data.length) hnr hlr]

/-- The dtype-uniformity scan depends only on the dtypes. -/
lemma any_dtype_congr : ∀ (ts1 ts2 : List Tensor),
    ts1.map (fun t => t.dtype) = ts2.map (fun t => t.dtype) → ∀ d : DataType,
    (ts1.any (fun t => t.dtype != d)) = (ts2.any (fun t => t.dtype != d)) := by
  intro ts1
  induction ts1 with
  | nil =>
    intro ts2 h d
    cases ts2 with
    | nil => rfl
    | cons u r2 => exact absurd h (by simp)
  | cons t r ih =>
    intro ts2 h d
    cases ts2 with
    | nil => exact absurd h (by simp)
    | cons u r2 =>
      simp only [List.map_cons, List.cons.injEq] at h
      simp only [List.any_cons, h.1, ih r2 h.2 d]

/-- A successful Seal means the id was pending; the buffer contents play no
role in the decision. -/
lemma seal_ok_cond {st : PlasmaStore} {id : String} {buf : List Nat}
    {st2 : PlasmaStore} (h : PlasmaStore.seal st id buf = .ok st2) :
    st.pending.any (fun p => p.1 == id) = true := by
  unfold PlasmaStore.seal at h
  split at h
  · assumption
  · exact absurd h (by simp)

/-- A failing Seal means the id was not pending, and the error is the store
error. -/
lemma seal_error_cond {st : PlasmaStore} {id : String} {buf : List Nat}
    {e : ErrKind} (h : PlasmaStore.seal st id buf = .error e) :
    st.pending.any (fun p => p.1 == id) = false ∧ e = .storeError := by
  unfold PlasmaStore.seal at h
  split at h
  · exact absurd h (by simp)
  · rename_i hcond
    refine ⟨by simpa only [Bool.not_eq_true] using hcond, ?_⟩
    injection h with h2
    exact h2.symm

/-- C8: the header-size computation of tensor_util.cc serializes an empty
placeholder tensor — its result is a pure function of (dtype, shape) and
never reads payload bytes (first conjunct, definitional reading of the
source).  Consequently two Put invocations whose inputs agree in dtypes,
element counts and byte sizes but carry arbitrarily different payload
contents perform exactly the same observable calls — including the same
header-size query with the same resulting byte count and the same Create
size — and end the same way. -/
theorem c8_header_size_payload_independent (dev : Device) (ser : SerializeFn)
    (st : PlasmaStore) (idt : IdTensor) (gpu : GpuCtx) (ts1 ts2 : List Tensor)
    (hd : ts1.map (fun t => t.dtype) = ts2.map (fun t => t.dtype))
    (hn : ts1.map (fun t => t.numElements) = ts2.map (fun t => t.numElements))
    (hl : ts1.map (fun t => t.data.length) = ts2.map (fun t => t.data.length)) :
    (∀ d sh, TensorFlowTensorGetHeaderSize ser d sh
        = (ser ⟨d, [], sh⟩).map List.length) ∧
    (TensorToPlasmaOp_ComputeAsync dev ser st ts1 idt gpu).events
      = (TensorToPlasmaOp_ComputeAsync dev ser st ts2 idt gpu).events ∧
    (TensorToPlasmaOp_ComputeAsync dev ser st ts1 idt gpu).outcome
      = (TensorToPlasmaOp_ComputeAsync dev ser st ts2 idt gpu).outcome := by
  refine ⟨?_, ?_⟩
  · intro d sh
    cases h : ser ⟨d, [], sh⟩ <;> simp [TensorFlowTensorGetHeaderSize, h, Except.map]
  cases ts1 with
  | nil =>
    cases ts2 with
    | nil => exact ⟨rfl, rfl⟩
    | cons u r2 => exact absurd hd (by simp)
  | cons t0 r1 =>
    cases ts2 with
    | nil => exact absurd hd (by simp)
    | cons u0 r2 =>
      simp only [List.map_cons, List.cons.injEq] at hd hn hl
      obtain ⟨hd0, hdr⟩ := hd
      obtain ⟨hn0, hnr⟩ := hn
      obtain ⟨hl0, hlr⟩ := hl
      have hco : computeOffsets (t0 :: r1) = computeOffsets (u0 :: r2) := by
        simp only [computeOffsets,
          offsetsLoop_congr (t0 :: r1) (u0 :: r2) 0
            (by simp [hn0, hnr]) (by simp [hl0, hlr])]
      have hanyc : (r1.any (fun t => t.dtype != u0.dtype))
          = (r2.any (fun t => t.dtype != u0.dtype)) :=
        any_dtype_congr r1 r2 hdr u0.dtype
      have hlen2 : r1.length = r2.length := by
        have := congrArg List.length hdr
        simpa using this
      have hsum : sumBytes (t0 :: r1) = sumBytes (u0 :: r2) := by
        simp [sumBytes, hl0, hlr]
      cases hco2 : computeOffsets (u0 :: r2) with
      | error e =>
        have hco1 : computeOffsets (t0 :: r1) = .error e := hco.trans hco2
        simp [TensorToPlasmaOp_ComputeAsync, hco1, hco2]
      | ok p =>
        obtain ⟨offsets, total⟩ := p
        have hco1 : computeOffsets (t0 :: r1) = .ok (offsets, total) :=
          hco.trans hco2
        simp only [TensorToPlasmaOp_ComputeAsync, hco1, hco2, hanyc, hd0,
          List.length_cons, hlen2]
        cases hany2 : (r2.any (fun t => t.dtype != u0.dtype)) with
        | true => simp
        | false =>
          simp only [Bool.false_eq_true, if_false]
          by_cases hnid : idt.numElements = 1
          case neg => simp [hnid]
          case pos =>
          simp only [hnid, ne_eq, not_true_eq_false, if_false]
          cases harrow : tf_dtype_to_arrow u0.dtype with
          | error e => simp
          | ok ad =>
          simp only []
          cases hhs : TensorFlowTensorGetHeaderSize ser ad [total / 4] with
          | error e => simp
          | ok h =>
          simp only []
          cases hcr : PlasmaStore.create st idt.value (h + total) with
          | error e => simp
          | ok q =>
          obtain ⟨st1, data_buffer⟩ := q
          simp only []
          cases hwr : TensorFlowTensorWrite ser ad [total / 4] data_buffer with
          | error e => simp
          | ok w =>
          obtain ⟨offset, buf1⟩ := w
          simp only []
          cases dev with
          | cpu =>
            simp only []
            cases hs1 : PlasmaStore.seal st1 idt.value
                (cpuCopyLoop offset (t0 :: r1) offsets buf1) with
            | error e1 =>
              cases hs2 : PlasmaStore.seal st1 idt.value
                  (cpuCopyLoop offset (u0 :: r2) offsets buf1) with
              | error e2 =>
                simp [(seal_error_cond hs1).2, (seal_error_cond hs2).2]
              | ok st2 =>
                exact absurd (seal_ok_cond hs2)
                  (by simp [(seal_error_cond hs1).1])
            | ok st2 =>
              cases hs2 : PlasmaStore.seal st1 idt.value
                  (cpuCopyLoop offset (u0 :: r2) offsets buf1) with
              | error e2 =>
                exact absurd (seal_ok_cond hs1)
                  (by simp [(seal_error_cond hs2).1])
              | ok st3 => simp
          | gpu =>
            cases gpu.hasStream <;> cases gpu.registerOk <;>
              cases gpu.initOk <;> cases gpu.waitOk <;> simp <;>
              cases (gpuEnqueueLoop gpu.enqueueOk 0 (r2.length + 1)).1 <;> simp

/-- Witness for C7 at a concrete Put that reaches the store: one float32
tensor of 4 bytes, 4-byte header, so the Create size is 8. -/
theorem c7_create_size_witness :
    (Event.createCalled "x" 8 ∈
      (TensorToPlasmaOp_ComputeAsync .cpu ser0 emptyStore
        [⟨.DT_FLOAT, 1, [1, 2, 3, 4]⟩] ⟨1, "x"⟩ gpu0).events) ∧
    (∃ t0 rest ad h,
      ([⟨.DT_FLOAT, 1, [1, 2, 3, 4]⟩] : List Tensor) = t0 :: rest ∧
      tf_dtype_to_arrow t0.dtype = .ok ad ∧
      (∀ t ∈ ([⟨.DT_FLOAT, 1, [1, 2, 3, 4]⟩] : List Tensor),
        t.dtype = t0.dtype) ∧
      (∀ t ∈ ([⟨.DT_FLOAT, 1, [1, 2, 3, 4]⟩] : List Tensor),
        t.data.length = t.numElements * 4 ∧ 0 < t.data.length) ∧
      TensorFlowTensorGetHeaderSize ser0 ad
        [sumBytes [⟨.DT_FLOAT, 1, [1, 2, 3, 4]⟩] / 4] = .ok h ∧
      Event.headerSizeCalled ad
          [sumBytes [⟨.DT_FLOAT, 1, [1, 2, 3, 4]⟩] / 4] ∈
        (TensorToPlasmaOp_ComputeAsync .cpu ser0 emptyStore
          [⟨.DT_FLOAT, 1, [1, 2, 3, 4]⟩] ⟨1, "x"⟩ gpu0).events ∧
      "x" = (⟨1, "x"⟩ : IdTensor).value ∧
      8 = h + sumBytes [⟨.DT_FLOAT, 1, [1, 2, 3, 4]⟩]) :=
  ⟨by decide,
   c7_create_size .cpu ser0 emptyStore [⟨.DT_FLOAT, 1, [1, 2, 3, 4]⟩]
     ⟨1, "x"⟩ gpu0 "x" 8 (by decide)⟩

/-- Witness for C8: two Puts of one float32 tensor with different payload
bytes make identical observable calls. -/
theorem c8_header_size_payload_independent_witness :
    (TensorToPlasmaOp_ComputeAsync .cpu ser0 emptyStore
        [⟨.DT_FLOAT, 1, [1, 2, 3, 4]⟩] ⟨1, "x"⟩ gpu0).events
      = (TensorToPlasmaOp_ComputeAsync .cpu ser0 emptyStore
        [⟨.DT_FLOAT, 1, [5, 6, 7, 8]⟩] ⟨1, "x"⟩ gpu0).events :=
  (c8_header_size_payload_independent .cpu ser0 emptyStore ⟨1, "x"⟩ gpu0
    [⟨.DT_FLOAT, 1, [1, 2, 3, 4]⟩] [⟨.DT_FLOAT, 1, [5, 6, 7, 8]⟩]
    rfl rfl rfl).2.1

/-- Completion events of a list of copy items. -/
lemma flatMap_copy_list : ∀ (l : List Nat),
    ((l.map StreamItem.copy).flatMap execEvents) = l.map Event.copyDone := by
  intro l
  induction l with
  | nil => rfl
  | cons a l ih =>
    simp only [List.map_cons, List.flatMap_cons, ih]
    rfl

/-- When all enqueues are accepted, the enqueued copies are exactly one per
index, in order. -/
lemma gpuEnqueueLoop_ok_shape : ∀ (m i : Nat) (enq : Nat → Bool),
    (gpuEnqueueLoop enq i m).1 = true →
    (gpuEnqueueLoop enq i m).2 = (List.range' i m).map StreamItem.copy := by
  intro m
  induction m with
  | zero => intro i enq _; simp [gpuEnqueueLoop]
  | succ k ih =>
    intro i enq h
    simp only [gpuEnqueueLoop] at h ⊢
    cases henq : enq i with
    | false => rw [henq] at h; simp at h
    | true =>
      rw [henq] at h
      rw [if_pos rfl] at h ⊢
      rw [List.range']
      simp only [List.map_cons, List.cons.injEq]
      exact ⟨trivial, ih (i + 1) enq h⟩

/-- On a device Put whose synchronous part succeeds, the staging-stream
queue is exactly the cross-stream wait, one copy per input tensor in input
order, and the seal-and-done hook last. -/
lemma put_gpu_queue (ser : SerializeFn) (st : PlasmaStore)
    (inputs : List Tensor) (idt : IdTensor) (gpu : GpuCtx)
    (hok : (TensorToPlasmaOp_ComputeAsync .gpu ser st inputs idt gpu).outcome
      = .ok) :
    ∃ buf, (TensorToPlasmaOp_ComputeAsync .gpu ser st inputs idt gpu).queue
      = .waitFor :: ((List.range inputs.length).map StreamItem.copy
        ++ [.hookSeal idt.value buf]) := by
  cases inputs with
  | nil => simp [TensorToPlasmaOp_ComputeAsync] at hok
  | cons t0 rest =>
    simp only [TensorToPlasmaOp_ComputeAsync] at hok ⊢
    repeat' split at hok
    all_goals simp_all
    rename_i heq
    rw [if_neg (by simp_all)]
    exact ⟨_, by rw [gpuEnqueueLoop_ok_shape _ _ _ heq, List.range_eq_range']⟩

/-- In every interleaved execution starting from the host program `p`, the
stream has consumed some prefix of the items in enqueue order: the emitted
trace is the concatenated events of a list `consumed` with
`p = consumed ++ queue ++ toEnqueue`. -/
lemma mreach_decomp (p : List StreamItem) (s : MachineState)
    (h : MReach ⟨p, [], []⟩ s) :
    ∃ consumed, p = consumed ++ (s.queue ++ s.toEnqueue) ∧
      s.trace = consumed.flatMap execEvents := by
  induction h with
  | refl => exact ⟨[], by simp, by simp⟩
  | tail hab hbc ih =>
    obtain ⟨consumed, hp, htr⟩ := ih
    cases hbc with
    | host x xs q tr =>
      refine ⟨consumed, ?_, htr⟩
      have hp' : p = consumed ++ (q ++ (x :: xs)) := hp
      show p = consumed ++ ((q ++ [x]) ++ xs)
      rw [hp']
      simp
    | stream x xs q tr =>
      refine ⟨consumed ++ [x], ?_, ?_⟩
      · have hp' : p = consumed ++ ((x :: q) ++ xs) := hp
        show p = (consumed ++ [x]) ++ (q ++ xs)
        rw [hp']
        simp
      · have htr' : tr = consumed.flatMap execEvents := htr
        show tr ++ execEvents x = (consumed ++ [x]).flatMap execEvents
        rw [List.flatMap_append, htr']
        simp

/-- C2: on the device Put path, whenever the interleaved host/stream
execution has emitted the seal event (the `wrapped_callback` hook) at trace
position j, the completion of every one of the N payload copies appears
strictly before position j.  Seal is therefore never observed before the
last enqueued copy finishes, under arbitrary interleavings of the host
thread and the staging stream. -/
theorem c2_seal_after_copies (ser : SerializeFn) (st : PlasmaStore)
    (inputs : List Tensor) (idt : IdTensor) (gpu : GpuCtx) (s : MachineState)
    (hok : (TensorToPlasmaOp_ComputeAsync .gpu ser st inputs idt gpu).outcome
      = .ok)
    (hreach : MReach
      ⟨(TensorToPlasmaOp_ComputeAsync .gpu ser st inputs idt gpu).queue,
       [], []⟩ s)
    (j : Nat) (id : String)
    (hseal : s.trace.get? j = some (.sealCalled id)) :
    ∀ i, i < inputs.length → Event.copyDone i ∈ s.trace.take j := by
  obtain ⟨buf, hq⟩ := put_gpu_queue ser st inputs idt gpu hok
  rw [hq] at hreach
  obtain ⟨consumed, hp, htr⟩ := mreach_decomp _ _ hreach
  have hprog : StreamItem.waitFor :: ((List.range inputs.length).map
        StreamItem.copy ++ [StreamItem.hookSeal idt.value buf])
      = (StreamItem.waitFor :: (List.range inputs.length).map StreamItem.copy)
        ++ [StreamItem.hookSeal idt.value buf] := by
    simp
  rw [hprog] at hp
  have hsealmem : Event.sealCalled id ∈ s.trace := List.get?_mem hseal
  rw [htr] at hsealmem
  have hhook : StreamItem.hookSeal idt.value buf ∈ consumed := by
    rcases List.mem_flatMap.mp hsealmem with ⟨item, hitem, hev⟩
    cases item with
    | waitFor => simp [execEvents] at hev
    | copy i => simp [execEvents] at hev
    | hookDone => simp [execEvents] at hev
    | hookSeal id2 b2 =>
      have hmem : StreamItem.hookSeal id2 b2 ∈
          (StreamItem.waitFor :: (List.range inputs.length).map
            StreamItem.copy) ++ [StreamItem.hookSeal idt.value buf] := by
        rw [hp]
        exact List.mem_append.mpr (Or.inl hitem)
      have hsame : StreamItem.hookSeal id2 b2
          = StreamItem.hookSeal idt.value buf := by
        rcases List.mem_append.mp hmem with hfr | hlast
        · exfalso
          rcases List.mem_cons.mp hfr with h1 | h1
          · exact absurd h1 (by simp)
          · rcases List.mem_map.mp h1 with ⟨a, _, h2⟩
            exact absurd h2 (by simp)
        · simpa using hlast
      injection hsame with e1 e2
      rw [← e1, ← e2]
      exact hitem
  have hnohook : StreamItem.hookSeal idt.value buf ∉
      (StreamItem.waitFor :: (List.range inputs.length).map StreamItem.copy) := by
    simp
  have hconsumed : consumed
      = (StreamItem.waitFor :: (List.range inputs.length).map StreamItem.copy)
        ++ [StreamItem.hookSeal idt.value buf] := by
    cases hR : s.queue ++ s.toEnqueue with
    | nil =>
      rw [hR, List.append_nil] at hp
      exact hp.symm
    | cons r rs =>
      exfalso
      rw [hR] at hp
      have hlenc : consumed.length ≤ (StreamItem.waitFor ::
          (List.range inputs.length).map StreamItem.copy).length := by
        have hl := congrArg List.length hp
        simp at hl ⊢
        omega
      have hcpre : consumed = (StreamItem.waitFor ::
          (List.range inputs.length).map StreamItem.copy).take
            consumed.length := by
        have h1 : consumed = (consumed ++ (r :: rs)).take consumed.length := by
          rw [List.take_left]
        rw [← hp, List.take_append_of_le_length hlenc] at h1
        exact h1
      rw [hcpre] at hhook
      exact hnohook (List.mem_of_mem_take hhook)
  have htrace : s.trace = (List.range inputs.length).map Event.copyDone
      ++ [Event.sealCalled idt.value, Event.doneCalled] := by
    rw [htr, hconsumed, List.flatMap_append, List.flatMap_cons,
      flatMap_copy_list]
    rfl
  have hmaplen : ((List.range inputs.length).map Event.copyDone).length
      = inputs.length := by simp
  have hj : j = inputs.length := by
    rw [htrace] at hseal
    by_cases hlt : j < inputs.length
    · rw [List.get?_append (by simpa [hmaplen] using hlt), List.get?_map,
        List.get?_range hlt] at hseal
      simp at hseal
    · push_neg at hlt
      rw [List.get?_append_right (by simpa [hmaplen] using hlt), hmaplen]
        at hseal
      rcases hsub : j - inputs.length with _ | k
      · omega
      · rw [hsub] at hseal
        rcases k with _ | k2 <;> simp at hseal
  intro i hi
  rw [htrace, hj, List.take_left' hmaplen]
  exact List.mem_map.mpr ⟨i, List.mem_range.mpr hi, rfl⟩

/-- Witness for C2: a concrete device Put of one tensor, executed to
completion under one concrete interleaving (host enqueues everything, then
the stream runs); the seal event sits at trace position 1 and the copy
completion indeed precedes it. -/
theorem c2_seal_after_copies_witness :
    Event.copyDone 0 ∈
      ([Event.copyDone 0, Event.sealCalled "w",
        Event.doneCalled] : List Event).take 1 := by
  have hreach : MReach
      ⟨(TensorToPlasmaOp_ComputeAsync .gpu ser0 emptyStore
          [⟨.DT_FLOAT, 1, [1, 2, 3, 4]⟩] ⟨1, "w"⟩ gpu0).queue, [], []⟩
      ⟨[], [], [Event.copyDone 0, Event.sealCalled "w", Event.doneCalled]⟩ :=
    Relation.ReflTransGen.head
      (MStep.host StreamItem.waitFor
        [StreamItem.copy 0, StreamItem.hookSeal "w" [9, 9, 9, 9, 1, 2, 3, 4]]
        [] [])
      (Relation.ReflTransGen.head
        (MStep.host (StreamItem.copy 0)
          [StreamItem.hookSeal "w" [9, 9, 9, 9, 1, 2, 3, 4]]
          [StreamItem.waitFor] [])
        (Relation.ReflTransGen.head
          (MStep.host (StreamItem.hookSeal "w" [9, 9, 9, 9, 1, 2, 3, 4]) []
            [StreamItem.waitFor, StreamItem.copy 0] [])
          (Relation.ReflTransGen.head
            (MStep.stream StreamItem.waitFor []
              [StreamItem.copy 0,
               StreamItem.hookSeal "w" [9, 9, 9, 9, 1, 2, 3, 4]] [])
            (Relation.ReflTransGen.head
              (MStep.stream (StreamItem.copy 0) []
                [StreamItem.hookSeal "w" [9, 9, 9, 9, 1, 2, 3, 4]] [])
              (Relation.ReflTransGen.head
                (MStep.stream
                  (StreamItem.hookSeal "w" [9, 9, 9, 9, 1, 2, 3, 4]) [] []
                  [Event.copyDone 0])
                Relation.ReflTransGen.refl)))))
  exact c2_seal_after_copies ser0 emptyStore [⟨.DT_FLOAT, 1, [1, 2, 3, 4]⟩]
    ⟨1, "w"⟩ gpu0
    ⟨[], [], [Event.copyDone 0, Event.sealCalled "w", Event.doneCalled]⟩
    rfl hreach 1 "w" rfl 0 (by decide)

/-- Inversion of a successful Create. -/
lemma create_ok_inv {st : PlasmaStore} {id : String} {size : Nat}
    {st1 : PlasmaStore} {buf : List Nat}
    (h : PlasmaStore.create st id size = .ok (st1, buf)) :
    st1 = ⟨(id, List.replicate size 0) :: st.pending, st.sealed⟩ ∧
    buf = List.replicate size 0 := by
  unfold PlasmaStore.create at h
  split at h
  · exact absurd h (by simp)
  · simp only [Except.ok.injEq, Prod.mk.injEq] at h
    exact ⟨h.1.symm, h.2.symm⟩

/-- Every item the enqueue loop puts on the stream is a copy. -/
lemma gpuEnqueueLoop_items : ∀ (m i : Nat) (enq : Nat → Bool) (x : StreamItem),
    x ∈ (gpuEnqueueLoop enq i m).2 → ∃ j, x = .copy j := by
  intro m
  induction m with
  | zero => intro i enq x hx; simp [gpuEnqueueLoop] at hx
  | succ k ih =>
    intro i enq x hx
    simp only [gpuEnqueueLoop] at hx
    cases henq : enq i with
    | false => rw [henq] at hx; simp at hx
    | true =>
      rw [henq, if_pos rfl] at hx
      rcases List.mem_cons.mp hx with h1 | h1
      · exact ⟨i, h1⟩
      · exact ih (i + 1) enq x h1

/-- Draining waits and copies emits no completion callback and leaves the
store untouched. -/
lemma drainRun_quiet (st : PlasmaStore) : ∀ (q : List StreamItem),
    (∀ x ∈ q, x = .waitFor ∨ ∃ i, x = .copy i) →
    (drainRun st q).events.count Event.doneCalled = 0 ∧
    (drainRun st q).outcome = .ok := by
  intro q
  induction q with
  | nil => intro _; simp [drainRun]
  | cons x rest ih =>
    intro hx
    obtain h1 | ⟨i, h2⟩ := hx x (List.mem_cons_self x rest)
    · subst h1
      have hr := ih (fun y hy => hx y (List.mem_cons_of_mem _ hy))
      simp [drainRun, execItem, hr.1, hr.2]
    · subst h2
      have hr := ih (fun y hy => hx y (List.mem_cons_of_mem _ hy))
      simp [drainRun, execItem, hr.1, hr.2]

/-- Draining waits and copies followed by the seal hook of a pending object
runs the callback exactly once and ends cleanly. -/
lemma drainRun_quiet_then_seal (st : PlasmaStore) (id : String)
    (buf : List Nat)
    (hok : st.pending.any (fun p => p.1 == id) = true) :
    ∀ (q : List StreamItem), (∀ x ∈ q, x = .waitFor ∨ ∃ i, x = .copy i) →
    (drainRun st (q ++ [.hookSeal id buf])).events.count Event.doneCalled = 1 ∧
    (drainRun st (q ++ [.hookSeal id buf])).outcome = .ok := by
  intro q
  induction q with
  | nil =>
    intro _
    simp [drainRun, execItem, PlasmaStore.seal, hok]
  | cons x rest ih =>
    intro hx
    obtain h1 | ⟨i, h2⟩ := hx x (List.mem_cons_self x rest)
    · subst h1
      have hr := ih (fun y hy => hx y (List.mem_cons_of_mem _ hy))
      simp [drainRun, execItem, hr.1, hr.2]
    · subst h2
      have hr := ih (fun y hy => hx y (List.mem_cons_of_mem _ hy))
      simp [drainRun, execItem, hr.1, hr.2]

/-- C9 amended: over the complete observable history (synchronous part plus
staging-stream work), every Put or Get invocation runs the completion
callback exactly once on every path that returns control to the runtime
(OK or an error status), and zero times when a fatal check aborts the
process or when a Get blocks forever in the store fetch. -/
theorem c9_amended_callback_discipline :
    (∀ (dev : Device) (ser : SerializeFn) (st : PlasmaStore)
        (inputs : List Tensor) (idt : IdTensor) (gpu : GpuCtx),
      countDone (fullPutRun dev ser st inputs idt gpu).1
        = expectedDone (fullPutRun dev ser st inputs idt gpu).2) ∧
    (∀ (dev : Device) (st : PlasmaStore) (idt : IdTensor) (gpu : GpuCtx)
        (allocOk : Bool),
      countDone (fullGetRun dev st idt gpu allocOk).1
        = expectedDone (fullGetRun dev st idt gpu allocOk).2) := by
  constructor
  · intro dev ser st inputs idt gpu
    cases inputs with
    | nil =>
      simp [fullPutRun, TensorToPlasmaOp_ComputeAsync, countDone,
        expectedDone, drainRun]
    | cons t0 rest =>
      cases hco : computeOffsets (t0 :: rest) with
      | error e =>
        simp [fullPutRun, TensorToPlasmaOp_ComputeAsync, hco, countDone,
          expectedDone]
      | ok p =>
        obtain ⟨offsets, total⟩ := p
        cases hany : (rest.any (fun t => t.dtype != t0.dtype)) with
        | true =>
          simp [fullPutRun, TensorToPlasmaOp_ComputeAsync, hco, hany,
            countDone, expectedDone]
        | false =>
          by_cases hnid : idt.numElements = 1
          case neg =>
            simp [fullPutRun, TensorToPlasmaOp_ComputeAsync, hco, hany, hnid,
              countDone, expectedDone]
          case pos =>
          cases harrow : tf_dtype_to_arrow t0.dtype with
          | error e =>
            simp [fullPutRun, TensorToPlasmaOp_ComputeAsync, hco, hany, hnid,
              harrow, countDone, expectedDone]
          | ok ad =>
          cases hhs : TensorFlowTensorGetHeaderSize ser ad [total / 4] with
          | error e =>
            simp [fullPutRun, TensorToPlasmaOp_ComputeAsync, hco, hany, hnid,
              harrow, hhs, countDone, expectedDone]
          | ok h =>
          cases hcr : PlasmaStore.create st idt.value (h + total) with
          | error e =>
            simp [fullPutRun, TensorToPlasmaOp_ComputeAsync, hco, hany, hnid,
              harrow, hhs, hcr, countDone, expectedDone]
          | ok q =>
          obtain ⟨st1, data_buffer⟩ := q
          obtain ⟨hst1, hbuf⟩ := create_ok_inv hcr
          cases hwr : TensorFlowTensorWrite ser ad [total / 4] data_buffer with
          | error e =>
            simp [fullPutRun, TensorToPlasmaOp_ComputeAsync, hco, hany, hnid,
              harrow, hhs, hcr, hwr, countDone, expectedDone]
          | ok w =>
          obtain ⟨offset, buf1⟩ := w
          cases dev with
          | cpu =>
            simp [fullPutRun, TensorToPlasmaOp_ComputeAsync, hco, hany, hnid,
              harrow, hhs, hcr, hwr, PlasmaStore.seal, hst1, countDone,
              expectedDone, drainRun]
          | gpu =>
            cases hs : gpu.hasStream with
            | false =>
              simp [fullPutRun, TensorToPlasmaOp_ComputeAsync, hco, hany,
                hnid, harrow, hhs, hcr, hwr, hs, countDone, expectedDone,
                drainRun]
            | true =>
            cases hreg : gpu.registerOk with
            | false =>
              simp [fullPutRun, TensorToPlasmaOp_ComputeAsync, hco, hany,
                hnid, harrow, hhs, hcr, hwr, hs, hreg, countDone,
                expectedDone]
            | true =>
            cases hinit : gpu.initOk with
            | false =>
              simp [fullPutRun, TensorToPlasmaOp_ComputeAsync, hco, hany,
                hnid, harrow, hhs, hcr, hwr, hs, hreg, hinit, countDone,
                expectedDone]
            | true =>
            cases hwait : gpu.waitOk with
            | false =>
              simp [fullPutRun, TensorToPlasmaOp_ComputeAsync, hco, hany,
                hnid, harrow, hhs, hcr, hwr, hs, hreg, hinit, hwait,
                countDone, expectedDone]
            | true =>
            have hitems : ∀ x ∈ (StreamItem.waitFor ::
                (gpuEnqueueLoop gpu.enqueueOk 0 (rest.length + 1)).2),
                x = StreamItem.waitFor ∨ ∃ i, x = StreamItem.copy i := by
              intro x hx
              rcases List.mem_cons.mp hx with h1 | h1
              · exact Or.inl h1
              · exact Or.inr (gpuEnqueueLoop_items _ _ _ _ h1)
            cases hel : (gpuEnqueueLoop gpu.enqueueOk 0 (rest.length + 1)).1 with
            | false =>
              have hq := drainRun_quiet st1 _ hitems
              simp [fullPutRun, TensorToPlasmaOp_ComputeAsync, hco, hany,
                hnid, harrow, hhs, hcr, hwr, hs, hreg, hinit, hwait, hel,
                countDone, expectedDone, List.count_append, hq.1, hq.2]
            | true =>
              have hpend : st1.pending.any
                  (fun p => p.1 == idt.value) = true := by
                rw [hst1]
                simp
              have hq := drainRun_quiet_then_seal st1 idt.value
                (cpuCopyLoop offset (t0 :: rest) offsets buf1) hpend _ hitems
              rw [List.cons_append] at hq
              simp [fullPutRun, TensorToPlasmaOp_ComputeAsync, hco, hany,
                hnid, harrow, hhs, hcr, hwr, hs, hreg, hinit, hwait, hel,
                countDone, expectedDone, List.count_append, hq.1, hq.2]
  · intro dev st idt gpu allocOk
    by_cases hid : idt.numElements = 1
    case neg =>
      simp [fullGetRun, PlasmaToTensorOp_ComputeAsync, hid, countDone,
        expectedDone]
    case pos =>
    cases hobj : PlasmaStore.getSealed st idt.value with
    | none =>
      simp [fullGetRun, PlasmaToTensorOp_ComputeAsync, hid, hobj, countDone,
        expectedDone]
    | some bytes =>
      cases allocOk with
      | false =>
        simp [fullGetRun, PlasmaToTensorOp_ComputeAsync, hid, hobj,
          countDone, expectedDone, drainRun]
      | true =>
        cases dev with
        | cpu =>
          simp [fullGetRun, PlasmaToTensorOp_ComputeAsync, hid, hobj,
            countDone, expectedDone, drainRun]
        | gpu =>
          cases hs : gpu.hasStream <;> cases he : gpu.enqueueOk 0 <;>
            cases hw2 : gpu.waitOk <;>
            simp [fullGetRun, PlasmaToTensorOp_ComputeAsync, hid, hobj, hs,
              he, hw2, countDone, expectedDone, drainRun, execItem]
